import Mathlib

set_option maxRecDepth 4000

/-!
Shallow embedding of the robot_controller firmware core: the motor control
state machine (src/motor.rs) and the WebSocket command-handling path
(src/main.rs, ws_handler for /ws/control).

Machine state is modelled by four booleans: the two direction pins
(true = high) and the two PWM step channels (true = enabled).  Fallible
actuator writes are modelled by an oracle (`Actuators`) saying which
underlying writes fail; a failing write returns an error and leaves the
corresponding output unchanged.  Only error-level diagnostics are modelled
in the log.
-/

/-- enum Direction, from src/motor.rs. -/
inductive Direction
  | Forward
  | Back
  | Left
  | Right
deriving DecidableEq

/-- The four observable outputs of MotorControl (src/motor.rs): the two
direction GPIO pins (gpio20/gpio21, true = high) and the two LEDC step
channels (true = enabled). -/
structure MotorState where
  left_step_enabled : Bool
  left_dir : Bool
  right_step_enabled : Bool
  right_dir : Bool
deriving DecidableEq

/-- Failure oracle: which of the four underlying actuator writes fail. -/
structure Actuators where
  leftDirFails : Bool
  rightDirFails : Bool
  leftStepFails : Bool
  rightStepFails : Bool
deriving DecidableEq

/-- All writes succeed. -/
def noFail : Actuators := ⟨false, false, false, false⟩

/-- All writes fail. -/
def failActs : Actuators := ⟨true, true, true, true⟩

/-- left_dir.set_high()/set_low(): a failing write returns Err and leaves
the pin unchanged. -/
def writeLeftDir (a : Actuators) (b : Bool) (s : MotorState) :
    Except MotorState MotorState :=
  if a.leftDirFails then .error s else .ok { s with left_dir := b }

/-- right_dir.set_high()/set_low(). -/
def writeRightDir (a : Actuators) (b : Bool) (s : MotorState) :
    Except MotorState MotorState :=
  if a.rightDirFails then .error s else .ok { s with right_dir := b }

/-- left_step.enable()/disable(). -/
def writeLeftStep (a : Actuators) (b : Bool) (s : MotorState) :
    Except MotorState MotorState :=
  if a.leftStepFails then .error s else .ok { s with left_step_enabled := b }

/-- right_step.enable()/disable(). -/
def writeRightStep (a : Actuators) (b : Bool) (s : MotorState) :
    Except MotorState MotorState :=
  if a.rightStepFails then .error s else .ok { s with right_step_enabled := b }

/-- MotorControl::set_direction (src/motor.rs lines 34-55): writes the left
direction pin, then the right direction pin, short-circuiting on error
(the ? operator). -/
def set_directionE (a : Actuators) (s : MotorState) :
    Direction → Except MotorState MotorState
  | .Forward => (writeLeftDir a true s).bind (writeRightDir a true)
  | .Back => (writeLeftDir a false s).bind (writeRightDir a false)
  | .Left => (writeLeftDir a false s).bind (writeRightDir a true)
  | .Right => (writeLeftDir a true s).bind (writeRightDir a false)

/-- MotorControl::set_enable (src/motor.rs lines 22-32): enables or
disables the left step channel, then the right one, short-circuiting on
error. -/
def set_enableE (a : Actuators) (e : Bool) (s : MotorState) :
    Except MotorState MotorState :=
  if e then (writeLeftStep a true s).bind (writeRightStep a true)
  else (writeLeftStep a false s).bind (writeRightStep a false)

/-- Success path of MotorControl::set_direction: the state after both pin
writes complete. -/
def set_direction (s : MotorState) : Direction → MotorState
  | .Forward => { s with left_dir := true, right_dir := true }
  | .Back => { s with left_dir := false, right_dir := false }
  | .Left => { s with left_dir := false, right_dir := true }
  | .Right => { s with left_dir := true, right_dir := false }

/-- Success path of MotorControl::set_enable. -/
def set_enable (s : MotorState) (e : Bool) : MotorState :=
  if e then { s with left_step_enabled := true, right_step_enabled := true }
  else { s with left_step_enabled := false, right_step_enabled := false }

/-- The direction table of spec section 4.2, written from the spec words:
(left signal, right signal), true = high. -/
def specDirTable : Direction → Bool × Bool
  | .Forward => (true, true)
  | .Back => (false, false)
  | .Left => (false, true)
  | .Right => (true, false)

/-- A sample motor state used to instantiate universally quantified
theorems: both motors disabled, both direction pins low. -/
def sampleState : MotorState := ⟨false, false, false, false⟩

/-- The parsed result of one command message (spec section 3,
DriveIntent). -/
structure DriveIntent where
  direction : Option Direction
  enable : Option Bool
deriving DecidableEq

/-- command.split of the handler (src/main.rs line 150): Rust
str::split by the character pattern, which always yields at least one
(possibly empty) piece. -/
def splitDash : List Char → List (List Char)
  | [] => [[]]
  | c :: rest =>
    match splitDash rest with
    | [] => [[]]
    | t :: ts => if c = '-' then [] :: t :: ts else (c :: t) :: ts

/-- command.trim_matches of the handler (src/main.rs line 146): strips
leading and trailing NUL characters. -/
def trimNul (s : List Char) : List Char :=
  ((s.dropWhile (fun c => c = Char.ofNat 0)).reverse.dropWhile
    (fun c => c = Char.ofNat 0)).reverse

/-- The direction-token match of the handler (src/main.rs lines 154-168),
applied to the first piece of the split: the recognized direction, if any,
and the error-level diagnostics emitted. -/
def parseDirection (parts : List (List Char)) :
    Option Direction × List String :=
  match parts.head? with
  | some t =>
    if t = "fwd".toList then (some Direction.Forward, [])
    else if t = "back".toList then (some Direction.Back, [])
    else if t = "left".toList then (some Direction.Left, [])
    else if t = "right".toList then (some Direction.Right, [])
    else (none, ["Invalid command received " ++ String.mk t])
  | none => (none, ["Did not get a direction"])

/-- The state-token match of the handler (src/main.rs lines 176-184),
restricted to its parsing aspect: the enable value the second piece maps
to, if any, and the diagnostics emitted. -/
def parseEnable (parts : List (List Char)) : Option Bool × List String :=
  match parts[1]? with
  | some t =>
    if t = "down".toList then (some true, [])
    else if t = "up".toList then (some false, [])
    else (none, ["Invalid button state " ++ String.mk t])
  | none => (none, [])

/-- The pure parsing aspect of the handler: split on the dash and map the
first two pieces through the direction and state token tables, collecting
diagnostics. -/
def parseCommand (cmd : List Char) : DriveIntent × List String :=
  let parts := splitDash cmd
  let pd := parseDirection parts
  let pe := parseEnable parts
  (⟨pd.1, pe.1⟩, pd.2 ++ pe.2)

/-- What one invocation of the ws_handler closure observably does. -/
inductive HandlerOutcome
  | ok
  | errInvalidSize
  | panicked (msg : String)
deriving DecidableEq

/-- One run of the handler: the Rust return value or panic, the motor
state afterwards, the error-level diagnostics logged, and whether a Close
frame was sent. -/
structure HandlerRun where
  outcome : HandlerOutcome
  state : MotorState
  log : List String
  closeSent : Bool
deriving DecidableEq

/-- The second half of the handler body (src/main.rs lines 176-184):
match on the state token and call set_enable; a write error hits expect
and panics with the message given there. -/
def stateStage (a : Actuators) (parts : List (List Char)) (s : MotorState)
    (lg : List String) : HandlerRun :=
  match parts[1]? with
  | some t =>
    if t = "down".toList then
      match set_enableE a true s with
      | .error s1 => ⟨.panicked ("Could not step"), s1, lg, false⟩
      | .ok s1 => ⟨.ok, s1, lg, false⟩
    else if t = "up".toList then
      match set_enableE a false s with
      | .error s1 => ⟨.panicked ("Could not step"), s1, lg, false⟩
      | .ok s1 => ⟨.ok, s1, lg, false⟩
    else ⟨.ok, s, lg ++ ["Invalid button state " ++ String.mk t], false⟩
  | none => ⟨.ok, s, lg, false⟩

/-- The handler body after UTF-8 decoding (src/main.rs lines 146-186):
trim NULs, split on the dash, match the direction token, apply the
direction if recognized (a write error hits expect and panics), then
handle the state token. -/
def handleCommand (a : Actuators) (raw : List Char) (s : MotorState) :
    HandlerRun :=
  let parts := splitDash (trimNul raw)
  let pd := parseDirection parts
  match pd.1 with
  | some d =>
    match set_directionE a s d with
    | .error s1 => ⟨.panicked ("Could not set direction"), s1, pd.2, false⟩
    | .ok s1 => stateStage a parts s1 pd.2
  | none => stateStage a parts s pd.2

/-- Max payload length (src/main.rs line 38). -/
def MAX_LEN : Nat := 128

/-- Is b a UTF-8 continuation byte (0x80..0xBF)? -/
def isCont (b : Nat) : Bool := 0x80 ≤ b && b ≤ 0xBF

/-- std::str::from_utf8 (src/main.rs line 141): validates the byte
sequence as UTF-8 (rejecting overlong encodings, surrogates and
out-of-range code points) and decodes it to characters. -/
def utf8Decode : List Nat → Option (List Char)
  | [] => some []
  | b :: rest =>
    if b ≤ 0x7F then (utf8Decode rest).map (fun cs => Char.ofNat b :: cs)
    else if 0xC2 ≤ b && b ≤ 0xDF then
      match rest with
      | b1 :: r =>
        if isCont b1 then
          (utf8Decode r).map (fun cs =>
            Char.ofNat ((b - 0xC0) * 64 + (b1 - 0x80)) :: cs)
        else none
      | [] => none
    else if 0xE0 ≤ b && b ≤ 0xEF then
      match rest with
      | b1 :: b2 :: r =>
        if (if b = 0xE0 then 0xA0 ≤ b1 && b1 ≤ 0xBF
            else if b = 0xED then 0x80 ≤ b1 && b1 ≤ 0x9F
            else isCont b1) && isCont b2 then
          (utf8Decode r).map (fun cs =>
            Char.ofNat ((b - 0xE0) * 4096 + (b1 - 0x80) * 64 + (b2 - 0x80))
              :: cs)
        else none
      | _ => none
    else if 0xF0 ≤ b && b ≤ 0xF4 then
      match rest with
      | b1 :: b2 :: b3 :: r =>
        if (if b = 0xF0 then 0x90 ≤ b1 && b1 ≤ 0xBF
            else if b = 0xF4 then 0x80 ≤ b1 && b1 ≤ 0x8F
            else isCont b1) && isCont b2 && isCont b3 then
          (utf8Decode r).map (fun cs =>
            Char.ofNat ((b - 0xF0) * 262144 + (b1 - 0x80) * 4096
              + (b2 - 0x80) * 64 + (b3 - 0x80)) :: cs)
        else none
      | _ => none
    else none

/-- One invocation of the ws_handler closure (src/main.rs lines 129-186)
on a data frame carrying the given payload bytes: reject oversized
payloads by closing the connection and returning ESP_ERR_INVALID_SIZE,
drop undecodable payloads with a log line, and otherwise handle the
decoded command. -/
def wsHandler (a : Actuators) (payload : List Nat) (s : MotorState) :
    HandlerRun :=
  if payload.length > MAX_LEN then ⟨.errInvalidSize, s, [], true⟩
  else
    match utf8Decode payload with
    | none => ⟨.ok, s, ["Could not parse request as UTF-8"], false⟩
    | some cs => handleCommand a cs s

/-- Applying a DriveIntent, modelled from the spec's orchestration
(section 4.2): set_direction if the direction field is present, then
set_enable if the enable field is present (success path). -/
def applyIntent (i : DriveIntent) (s : MotorState) : MotorState :=
  let s1 := match i.direction with
    | some d => set_direction s d
    | none => s
  match i.enable with
  | some e => set_enable s1 e
  | none => s1

/-! Trace model for concurrency: each command-handling context performs a
sequence of primitive actuator writes while holding the motor_control
Mutex (src/main.rs line 152); the Mutex forces each context's writes to
form one contiguous block of the global write trace. -/

/-- A primitive actuator write, one per underlying driver call. -/
inductive Wr
  | ldir (b : Bool)
  | rdir (b : Bool)
  | lstep (b : Bool)
  | rstep (b : Bool)
deriving DecidableEq

/-- Effect of one primitive write on the motor state. -/
def applyWr (w : Wr) (s : MotorState) : MotorState :=
  match w with
  | .ldir b => { s with left_dir := b }
  | .rdir b => { s with right_dir := b }
  | .lstep b => { s with left_step_enabled := b }
  | .rstep b => { s with right_step_enabled := b }

/-- Run a write trace left to right. -/
def execWrites (l : List Wr) (s : MotorState) : MotorState :=
  l.foldl (fun st w => applyWr w st) s

/-- The write sequence issued by set_direction, in source order. -/
def directionWrites : Direction → List Wr
  | .Forward => [.ldir true, .rdir true]
  | .Back => [.ldir false, .rdir false]
  | .Left => [.ldir false, .rdir true]
  | .Right => [.ldir true, .rdir false]

/-- The write sequence issued by set_enable, in source order. -/
def enableWrites (e : Bool) : List Wr := [.lstep e, .rstep e]

/-- The write sequence one handler invocation issues for an intent:
direction writes first (if a direction is present), then enable writes
(if an enable value is present). -/
def intentWrites (i : DriveIntent) : List Wr :=
  (match i.direction with
    | some d => directionWrites d
    | none => []) ++
  (match i.enable with
    | some e => enableWrites e
    | none => [])

/-- The writes a given thread (false or true) contributes to a tagged
trace, in trace order. -/
def threadWrites (c : Bool) (t : List (Bool × Wr)) : List Wr :=
  (t.filter (fun p => p.1 == c)).map Prod.snd

/-- Lock discipline enforced by the Mutex: in the global trace, one
thread's writes all come before the other's (each critical section is a
contiguous block, and here each thread has a single critical section). -/
def SerialSchedule (t : List (Bool × Wr)) : Prop :=
  ∃ n m, t.map Prod.fst = List.replicate n false ++ List.replicate m true ∨
    t.map Prod.fst = List.replicate n true ++ List.replicate m false

/-- A concrete two-thread trace: thread false applies the intent
(direction Forward, no enable) and thread true the intent (no direction,
enable true), serially. -/
def c9trace : List (Bool × Wr) :=
  [(false, Wr.ldir true), (false, Wr.rdir true),
    (true, Wr.lstep true), (true, Wr.rstep true)]

/-! Helper lemmas. -/

theorem set_directionE_noFail (s : MotorState) (d : Direction) :
    set_directionE noFail s d = .ok (set_direction s d) := by
  cases d <;> rfl

theorem set_enableE_noFail (e : Bool) (s : MotorState) :
    set_enableE noFail e s = .ok (set_enable s e) := by
  cases e <;> rfl

theorem splitDash_ne_nil (l : List Char) : splitDash l ≠ [] := by
  cases l with
  | nil => simp [splitDash]
  | cons c rest =>
    cases h : splitDash rest with
    | nil => simp [splitDash, h]
    | cons t ts =>
      simp only [splitDash, h]
      split <;> simp

theorem splitDash_append (pre r : List Char) (h : '-' ∉ pre) :
    splitDash (pre ++ '-' :: r) = pre :: splitDash r := by
  induction pre with
  | nil =>
    obtain ⟨t, ts, ht⟩ := List.exists_cons_of_ne_nil (splitDash_ne_nil r)
    simp [splitDash, ht]
  | cons c pre ih =>
    have hc : ¬ c = '-' := fun hh => h (hh ▸ List.mem_cons_self c pre)
    have hih := ih (fun hm => h (List.mem_cons_of_mem c hm))
    simp [splitDash, hih, hc]

theorem stateStage_noFail (parts : List (List Char)) (s : MotorState)
    (lg : List String) :
    stateStage noFail parts s lg =
      ⟨HandlerOutcome.ok,
        (match (parseEnable parts).1 with
          | some e => set_enable s e
          | none => s),
        lg ++ (parseEnable parts).2, false⟩ := by
  unfold stateStage parseEnable
  cases hp : parts[1]? with
  | none => simp
  | some t =>
    dsimp only
    split_ifs with h1 h2
    · rw [set_enableE_noFail]
      simp
    · rw [set_enableE_noFail]
      simp
    · rfl

theorem execWrites_append (l1 l2 : List Wr) (s : MotorState) :
    execWrites (l1 ++ l2) s = execWrites l2 (execWrites l1 s) := by
  simp [execWrites, List.foldl_append]

theorem execWrites_intentWrites (i : DriveIntent) (s : MotorState) :
    execWrites (intentWrites i) s = applyIntent i s := by
  rcases i with ⟨d, e⟩
  cases d with
  | none =>
    cases e with
    | none => rfl
    | some e => cases e <;> rfl
  | some d =>
    cases d <;> (cases e with
      | none => rfl
      | some e => cases e <;> rfl)

theorem threadWrites_cons_self (c : Bool) (w : Wr)
    (t : List (Bool × Wr)) :
    threadWrites c ((c, w) :: t) = w :: threadWrites c t := by
  simp [threadWrites]

theorem threadWrites_cons_ne (c b : Bool) (w : Wr) (t : List (Bool × Wr))
    (h : ¬ b = c) :
    threadWrites c ((b, w) :: t) = threadWrites c t := by
  simp [threadWrites, h]

theorem threadWrites_all (c : Bool) (t : List (Bool × Wr)) (m : Nat)
    (h : t.map Prod.fst = List.replicate m c) :
    threadWrites c t = t.map Prod.snd ∧ threadWrites (!c) t = [] := by
  induction t generalizing m with
  | nil => simp [threadWrites]
  | cons p rest ih =>
    rcases p with ⟨b, w⟩
    cases m with
    | zero => simp at h
    | succ m =>
      rw [List.replicate_succ] at h
      simp only [List.map_cons, List.cons.injEq] at h
      obtain ⟨hb, hrest⟩ := h
      obtain ⟨ih1, ih2⟩ := ih m hrest
      subst hb
      refine ⟨?_, ?_⟩
      · rw [threadWrites_cons_self, ih1, List.map_cons]
      · rw [threadWrites_cons_ne _ _ _ _ (by cases b <;> simp), ih2]

theorem threadWrites_blocks (c : Bool) (t : List (Bool × Wr)) (n m : Nat)
    (h : t.map Prod.fst = List.replicate n c ++ List.replicate m (!c)) :
    t.map Prod.snd = threadWrites c t ++ threadWrites (!c) t := by
  induction n generalizing t with
  | zero =>
    simp only [List.replicate_zero, List.nil_append] at h
    obtain ⟨h1, h2⟩ := threadWrites_all (!c) t m h
    rw [Bool.not_not] at h2
    rw [h1, h2, List.nil_append]
  | succ n ih =>
    cases t with
    | nil => simp at h
    | cons p rest =>
      rcases p with ⟨b, w⟩
      rw [List.replicate_succ] at h
      simp only [List.map_cons, List.cons_append, List.cons.injEq] at h
      obtain ⟨hb, hrest⟩ := h
      subst hb
      rw [List.map_cons, threadWrites_cons_self,
        threadWrites_cons_ne _ _ _ _ (by cases b <;> simp),
        ih rest hrest, List.cons_append]

/-! Claim theorems. -/

/-- C1: For every Direction value, a successful set_direction call leaves
the (left, right) direction-signal pair exactly equal to the fixed table
of spec section 4.2 — Forward=(high,high), Back=(low,low),
Left=(low,high), Right=(high,low) — so no successful set_direction call
produces any other pair for its direction. -/
theorem C1_set_direction_matches_table (a : Actuators) (s s1 : MotorState)
    (d : Direction) (h : set_directionE a s d = Except.ok s1) :
    (s1.left_dir, s1.right_dir) = specDirTable d := by
  cases d <;> cases h1 : a.leftDirFails <;> cases h2 : a.rightDirFails <;>
    simp_all [set_directionE, writeLeftDir, writeRightDir, specDirTable,
      Except.bind] <;>
    (cases h ; exact ⟨rfl, rfl⟩)

theorem C1_witness :
    set_directionE noFail sampleState Direction.Forward =
      Except.ok ⟨false, true, false, true⟩ ∧
    ((⟨false, true, false, true⟩ : MotorState).left_dir,
        (⟨false, true, false, true⟩ : MotorState).right_dir) =
      specDirTable Direction.Forward :=
  ⟨by rfl, C1_set_direction_matches_table noFail sampleState
    ⟨false, true, false, true⟩ Direction.Forward (by rfl)⟩

/-- C2: The parser maps the listed example inputs exactly as specified:
"fwd-down" to direction Forward with enable true; "left" to direction
Left with no enable; "back-up" to direction Back with enable false;
"xyz-down" to no direction with enable true plus an unrecognized-direction
diagnostic; and "" to neither field plus a diagnostic. -/
theorem C2_parse_examples :
    parseCommand ("fwd-down".toList) =
      (⟨some Direction.Forward, some true⟩, []) ∧
    parseCommand ("left".toList) = (⟨some Direction.Left, none⟩, []) ∧
    parseCommand ("back-up".toList) =
      (⟨some Direction.Back, some false⟩, []) ∧
    parseCommand ("xyz-down".toList) =
      (⟨none, some true⟩, ["Invalid command received xyz"]) ∧
    parseCommand [] = (⟨none, none⟩, ["Invalid command received "]) := by
  decide

/-- C3 counterexample: with all actuator writes failing, the command
"fwd" makes the handler panic (the expect call), rather than return
successfully with the command logged and dropped — refuting the claim
that the command-handling boundary logs the failure and drops the command
without crashing the process. -/
theorem C3_counterexample :
    handleCommand failActs ("fwd".toList) sampleState =
      ⟨HandlerOutcome.panicked ("Could not set direction"), sampleState,
        [], false⟩ ∧
    (handleCommand failActs ("fwd".toList) sampleState).outcome ≠
      HandlerOutcome.ok := by
  decide

/-- C3 amended: when an actuator write fails during command handling, the
failure hits the expect call and the handler panics (aborting the
process) instead of logging the error and dropping the command. The three
ways a write can be reached and fail: a failing set_direction panics with
"Could not set direction"; a failing set_enable with no direction
recognized panics with "Could not step"; and a failing set_enable after a
successful set_direction also panics with "Could not step". -/
theorem C3_actuator_failure_panics (a : Actuators) (raw : List Char)
    (s : MotorState) :
    (∀ d s1, (parseDirection (splitDash (trimNul raw))).1 = some d →
      set_directionE a s d = Except.error s1 →
      handleCommand a raw s =
        ⟨HandlerOutcome.panicked ("Could not set direction"), s1,
          (parseDirection (splitDash (trimNul raw))).2, false⟩) ∧
    (∀ e s1, (parseDirection (splitDash (trimNul raw))).1 = none →
      ((splitDash (trimNul raw))[1]? = some ("down".toList) ∧ e = true ∨
        (splitDash (trimNul raw))[1]? = some ("up".toList) ∧ e = false) →
      set_enableE a e s = Except.error s1 →
      handleCommand a raw s =
        ⟨HandlerOutcome.panicked ("Could not step"), s1,
          (parseDirection (splitDash (trimNul raw))).2, false⟩) ∧
    (∀ d e s2 s1, (parseDirection (splitDash (trimNul raw))).1 = some d →
      set_directionE a s d = Except.ok s2 →
      ((splitDash (trimNul raw))[1]? = some ("down".toList) ∧ e = true ∨
        (splitDash (trimNul raw))[1]? = some ("up".toList) ∧ e = false) →
      set_enableE a e s2 = Except.error s1 →
      handleCommand a raw s =
        ⟨HandlerOutcome.panicked ("Could not step"), s1,
          (parseDirection (splitDash (trimNul raw))).2, false⟩) := by
  refine ⟨?_, ?_, ?_⟩
  · intro d s1 hd hw
    unfold handleCommand
    simp only [hd, hw]
  · intro e s1 hd ht hw
    unfold handleCommand stateStage
    rcases ht with ⟨ht, he⟩ | ⟨ht, he⟩ <;> subst he <;>
      simp only [hd, ht, hw] <;> simp
  · intro d e s2 s1 hd hok ht hw
    unfold handleCommand stateStage
    rcases ht with ⟨ht, he⟩ | ⟨ht, he⟩ <;> subst he <;>
      simp only [hd, hok, ht, hw] <;> simp

theorem C3_witness :
    handleCommand ⟨false, false, true, true⟩ ("fwd-down".toList)
        sampleState =
      ⟨HandlerOutcome.panicked ("Could not step"),
        ⟨false, true, false, true⟩,
        (parseDirection (splitDash (trimNul ("fwd-down".toList)))).2,
        false⟩ :=
  (C3_actuator_failure_panics ⟨false, false, true, true⟩
      ("fwd-down".toList) sampleState).2.2
    Direction.Forward true ⟨false, true, false, true⟩
    ⟨false, true, false, true⟩ (by decide) (by rfl)
    (Or.inl ⟨by decide, rfl⟩) (by rfl)

/-- C4 counterexample: for the input "fwd-down-up", which contains two
dashes, the parsed result carries enable = true — refuting the claim that
the state token is the entire remainder after the first dash and, not
matching "down" or "up", sets no enable field. -/
theorem C4_counterexample :
    parseCommand ("fwd-down-up".toList) =
      (⟨some Direction.Forward, some true⟩, []) := by
  decide

/-- C4 amended: the command is split on every dash; the direction token is
the first piece and the state token is the second piece, and any pieces
after the second are ignored — so for every input of the form
"fwd-down-..." the parsed result is direction Forward with enable true
and no diagnostic. -/
theorem C4_split_unbounded (rest : List Char) :
    parseCommand ("fwd-down-".toList ++ rest) =
      (⟨some Direction.Forward, some true⟩, []) := by
  have e1 : "fwd-down-".toList ++ rest =
      "fwd".toList ++ '-' :: ("down".toList ++ '-' :: rest) := rfl
  have h2 : splitDash ("fwd-down-".toList ++ rest) =
      "fwd".toList :: "down".toList :: splitDash rest := by
    rw [e1, splitDash_append _ _ (by decide), splitDash_append _ _ (by decide)]
  simp only [parseCommand]
  rw [h2]
  simp [parseDirection, parseEnable]

/-- C5: The handler (with all writes succeeding) behaves exactly as
applying the parsed intent: set_direction is performed only if the
direction field is present, set_enable only if the enable field is
present, direction before enable, and when neither is present the motor
state is unchanged. -/
theorem C5_handler_applies_parsed_intent (raw : List Char)
    (s : MotorState) :
    handleCommand noFail raw s =
      ⟨HandlerOutcome.ok, applyIntent (parseCommand (trimNul raw)).1 s,
        (parseCommand (trimNul raw)).2, false⟩ := by
  unfold handleCommand
  simp only [parseCommand]
  cases hpd : (parseDirection (splitDash (trimNul raw))).1 with
  | none => simp only [hpd, stateStage_noFail, applyIntent]
  | some d =>
    simp only [hpd, set_directionE_noFail, stateStage_noFail, applyIntent]

/-- C6: Every payload longer than 128 bytes makes the handler send a
Close frame and return the invalid-size error, without parsing the
payload or touching the motor state. -/
theorem C6_oversized_closes (a : Actuators) (payload : List Nat)
    (s : MotorState) (h : payload.length > MAX_LEN) :
    wsHandler a payload s =
      ⟨HandlerOutcome.errInvalidSize, s, [], true⟩ := by
  unfold wsHandler
  rw [if_pos h]

theorem C6_witness :
    (List.replicate 129 (0 : Nat)).length > MAX_LEN ∧
    wsHandler noFail (List.replicate 129 0) sampleState =
      ⟨HandlerOutcome.errInvalidSize, sampleState, [], true⟩ :=
  ⟨by decide, C6_oversized_closes noFail (List.replicate 129 0) sampleState
    (by decide)⟩

/-- C7 counterexample: a 129-byte payload of 0xFF bytes is not valid
UTF-8, yet the handler does not return successfully with the session
open — it closes the connection with the invalid-size error — refuting
the claim for payloads that are both oversized and undecodable. -/
theorem C7_counterexample :
    utf8Decode (List.replicate 129 255) = none ∧
    (wsHandler noFail (List.replicate 129 255) sampleState).outcome ≠
      HandlerOutcome.ok ∧
    (wsHandler noFail (List.replicate 129 255) sampleState).closeSent =
      true := by
  refine ⟨by rfl, by decide, by decide⟩

/-- C7 amended: for every payload of at most 128 bytes whose bytes are
not valid UTF-8, the handler produces no intent, leaves the motor state
unchanged, logs the decoding failure, returns successfully, and sends no
Close frame. -/
theorem C7_invalid_utf8_noop (a : Actuators) (payload : List Nat)
    (s : MotorState) (hlen : payload.length ≤ MAX_LEN)
    (hdec : utf8Decode payload = none) :
    wsHandler a payload s =
      ⟨HandlerOutcome.ok, s, ["Could not parse request as UTF-8"],
        false⟩ := by
  unfold wsHandler
  rw [if_neg (Nat.not_lt.mpr hlen), hdec]

theorem C7_witness :
    ([255] : List Nat).length ≤ MAX_LEN ∧
    utf8Decode [255] = none ∧
    wsHandler noFail [255] sampleState =
      ⟨HandlerOutcome.ok, sampleState,
        ["Could not parse request as UTF-8"], false⟩ :=
  ⟨by decide, by rfl, C7_invalid_utf8_noop noFail [255] sampleState
    (by decide) (by rfl)⟩

/-- C8: Applying the same intent twice in sequence (all writes
succeeding) leaves the motor state identical to applying it once. -/
theorem C8_apply_idempotent (i : DriveIntent) (s : MotorState) :
    applyIntent i (applyIntent i s) = applyIntent i s := by
  rcases i with ⟨d, e⟩
  cases d with
  | none =>
    cases e with
    | none => rfl
    | some e => cases e <;> rfl
  | some d =>
    cases d <;> (cases e with
      | none => rfl
      | some e => cases e <;> rfl)

/-- C9: If two command-handling contexts each perform the write sequence
of their intent and the Mutex serializes them (each context's writes form
one contiguous block of the trace), the final motor state equals the
state produced by applying the two intents in some serial order — never
an interleaved mixed-direction state. -/
theorem C9_serializability (i1 i2 : DriveIntent) (t : List (Bool × Wr))
    (s : MotorState)
    (h1 : threadWrites false t = intentWrites i1)
    (h2 : threadWrites true t = intentWrites i2)
    (hs : SerialSchedule t) :
    execWrites (t.map Prod.snd) s = applyIntent i2 (applyIntent i1 s) ∨
    execWrites (t.map Prod.snd) s = applyIntent i1 (applyIntent i2 s) := by
  obtain ⟨n, m, hc | hc⟩ := hs
  · left
    have hb := threadWrites_blocks false t n m hc
    have h2' : threadWrites (!false) t = intentWrites i2 := h2
    rw [hb, h1, h2', execWrites_append, execWrites_intentWrites,
      execWrites_intentWrites]
  · right
    have hb := threadWrites_blocks true t n m hc
    have h1' : threadWrites (!true) t = intentWrites i1 := h1
    rw [hb, h2, h1', execWrites_append, execWrites_intentWrites,
      execWrites_intentWrites]

theorem C9_witness :
    threadWrites false c9trace =
      intentWrites ⟨some Direction.Forward, none⟩ ∧
    threadWrites true c9trace = intentWrites ⟨none, some true⟩ ∧
    SerialSchedule c9trace ∧
    (execWrites (c9trace.map Prod.snd) sampleState =
        applyIntent ⟨none, some true⟩
          (applyIntent ⟨some Direction.Forward, none⟩ sampleState) ∨
      execWrites (c9trace.map Prod.snd) sampleState =
        applyIntent ⟨some Direction.Forward, none⟩
          (applyIntent ⟨none, some true⟩ sampleState)) :=
  ⟨by decide, by decide, ⟨2, 2, Or.inl (by decide)⟩,
    C9_serializability ⟨some Direction.Forward, none⟩ ⟨none, some true⟩
      c9trace sampleState (by decide) (by decide)
      ⟨2, 2, Or.inl (by decide)⟩⟩

/-- C10: set_direction never changes either motor's enabled flag, and
set_enable never changes either motor's direction pin: each operation
modifies only its own pair of outputs. -/
theorem C10_frame (s : MotorState) (d : Direction) (e : Bool) :
    (set_direction s d).left_step_enabled = s.left_step_enabled ∧
    (set_direction s d).right_step_enabled = s.right_step_enabled ∧
    (set_enable s e).left_dir = s.left_dir ∧
    (set_enable s e).right_dir = s.right_dir := by
  cases d <;> cases e <;> exact ⟨rfl, rfl, rfl, rfl⟩
